import Mathlib

/-
Verification of the session state machine of the scrubble-scores turn
tracker (src/src/components/hero.tsx) against its specification.

The component's React state is embedded as an explicit `State` record, and
each event handler (beginNaming, startPlaying, addTurn, undoLast, resetAll,
the persistence load/save effects and the totals memo) as a pure function
over it.  Numeric values are modelled as integers, following the data model
of the specification ("a signed integer point value"); string inputs that
denote non-integers fall outside this embedding and are mapped to `none`
(treated like the non-finite results that the code's Number.isFinite guard
rejects).  Sources of nondeterminism (Math.random-based ids, Date.now)
become explicit parameters.
-/

/-- Stage of the session: 'setup' | 'naming' | 'play' (hero.tsx line 26). -/
inductive Stage where
  | setup
  | naming
  | play
deriving Repr, DecidableEq

/-- Player record (hero.tsx lines 5-10). -/
structure Player where
  id : String
  name : String
  emoji : String
  total : Int
deriving Repr, DecidableEq

/-- Turn record (hero.tsx lines 12-17). -/
structure Turn where
  id : String
  playerId : String
  points : Int
  timestamp : Nat
deriving Repr, DecidableEq

/-- The fixed avatar palette EMOJIS (hero.tsx lines 19-21). -/
def EMOJIS : List String :=
  ["🦁", "🐙", "🦄", "🚀", "🔥", "🌵", "🍕", "🎯",
   "🎲", "👑", "🧠", "⚡", "🌈", "🐼", "🐧", "🤖"]

/-- The component's React state (hero.tsx lines 26-31): stage, playerCount,
players, turns, the pending numeric input text currentPoints, and
currentPlayerIndex. -/
structure State where
  stage : Stage
  playerCount : Nat
  players : List Player
  turns : List Turn
  currentPoints : String
  currentPlayerIndex : Nat
deriving Repr, DecidableEq

/-- Parse a nonempty list of decimal digit characters; any other character
makes the whole parse fail (JS Number() yields NaN on stray characters). -/
def parseDigits (cs : List Char) : Option Nat :=
  match cs with
  | [] => none
  | _ =>
    cs.foldl
      (fun acc c =>
        acc.bind (fun n => if c.isDigit then some (10 * n + (c.toNat - 48)) else none))
      (some 0)

/-- Model of the JavaScript conversion Number(s) applied to the
currentPoints string, combined with the Number.isFinite check
(hero.tsx lines 94-95), restricted to the integer numerals this
development's numeric domain covers: surrounding whitespace is trimmed, the
empty (or all-whitespace) string converts to 0, and an optional sign
followed by decimal digits converts to the signed integer they denote.
Every other string maps to none, meaning the isFinite guard fails
(NaN, Infinity; fractional/exponent/hex forms denote non-integers or are
out of the integer domain of this embedding). -/
def jsToNumber (s : String) : Option Int :=
  let t := ((s.toList.dropWhile Char.isWhitespace).reverse.dropWhile
    Char.isWhitespace).reverse
  match t with
  | [] => some 0
  | '+' :: rest => (parseDigits rest).map Int.ofNat
  | '-' :: rest => (parseDigits rest).map (fun n => -(n : Int))
  | cs => (parseDigits cs).map Int.ofNat

/-- Model of the JS Record<string, number> used by the totals memo: a
partial map from player-id strings to numbers (absent key = property not
present on the object). -/
def RecMap : Type := String → Option Int

/-- Setting one key of the record (map[k] = v). -/
def recSet (m : RecMap) (k : String) (v : Int) : RecMap :=
  fun q => if q = k then some v else m q

/-- One step of the turns.forEach loop of the totals memo
(hero.tsx lines 56-58): map[t.playerId] = (map[t.playerId] || 0) + t.points.
The JS expression (map[t.playerId] || 0) reads 0 both for an absent key and
for a stored 0, which is Option.getD 0 on integers. -/
def totalsStep (m : RecMap) (t : Turn) : RecMap :=
  recSet m t.playerId ((m t.playerId).getD 0 + t.points)

/-- The totals memo (hero.tsx lines 53-60): initialise every roster
player's entry to 0, then fold totalsStep over the turn log. -/
def computeTotals (players : List Player) (turns : List Turn) : RecMap :=
  turns.foldl totalsStep
    (players.foldl (fun m p => recSet m p.id 0) (fun _ => none))

/-- The total displayed for a player id (hero.tsx line 205):
totals[p.id] ?? 0. -/
def displayedTotal (players : List Player) (turns : List Turn) (pid : String) : Int :=
  (computeTotals players turns pid).getD 0

/-- Sum of the points of exactly the turns whose playerId is pid. -/
def sumFor (turns : List Turn) (pid : String) : Int :=
  ((turns.filter (fun t => t.playerId = pid)).map Turn.points).sum

/-- beginNaming (hero.tsx lines 67-76): replaces the roster with playerCount
fresh players — id uid('p_'), name "Player {i+1}", emoji
EMOJIS[i % EMOJIS.length], total 0 — and sets the stage to 'naming'.  The
Math.random-based id generator uid is modelled by the explicit supply
freshIds : Nat → String giving the id produced for the i-th player. -/
def beginNaming (freshIds : Nat → String) (s : State) : State :=
  { s with
    players :=
      (List.range s.playerCount).map (fun i =>
        { id := freshIds i
          name := "Player " ++ toString (i + 1)
          emoji := EMOJIS.getD (i % EMOJIS.length) ""
          total := 0 })
    stage := Stage.naming }

/-- startPlaying (hero.tsx lines 78-83): clears the turn log, resets the
current index to 0, clears the pending input, and enters the play stage. -/
def startPlaying (s : State) : State :=
  { s with
    turns := []
    currentPlayerIndex := 0
    currentPoints := ""
    stage := Stage.play }

/-- addTurn (hero.tsx lines 93-103).  The result is some of the successor
state; none models the TypeError the JS code raises reading player.id when
players[currentPlayerIndex] is undefined (index out of bounds on a
non-empty roster).  The Math.random-based turn id and Date.now() timestamp
are explicit parameters freshId and now. -/
def addTurn (freshId : String) (now : Nat) (s : State) : Option State :=
  match jsToNumber s.currentPoints with
  | none => some s
  | some n =>
    if s.players.length = 0 then some s
    else
      match s.players[s.currentPlayerIndex]? with
      | none => none
      | some player =>
        some { s with
          turns := s.turns ++ [{ id := freshId, playerId := player.id, points := n, timestamp := now }]
          currentPoints := ""
          currentPlayerIndex := (s.currentPlayerIndex + 1) % s.players.length }

/-- undoLast (hero.tsx lines 105-108): drops the last turn (slice(0, -1))
and sets the index to (i - 1 + players.length) % players.length.  With a
non-empty roster that JS expression is the non-negative integer
(i + len - 1) % len.  With an empty roster it is NaN — a value outside the
integer state space of this embedding — so that case is modelled as none. -/
def undoLast (s : State) : Option State :=
  if s.players.length = 0 then none
  else
    some { s with
      turns := s.turns.dropLast
      currentPlayerIndex :=
        (s.currentPlayerIndex + s.players.length - 1) % s.players.length }

/-- resetAll (hero.tsx lines 110-118), state part: empty roster and log,
stage 'setup', playerCount 2, empty pending input, index 0 (the removal of
the persisted slot is the caller's storage side effect). -/
def resetAll (_s : State) : State :=
  { stage := Stage.setup
    playerCount := 2
    players := []
    turns := []
    currentPoints := ""
    currentPlayerIndex := 0 }

/-- The blob the persist effect writes (hero.tsx lines 48-50):
{ players, turns, stage, playerCount, currentPlayerIndex }.  Fields are
Option so that a blob missing a field (undefined after JSON.parse) is also
representable for the load path. -/
structure StoredData where
  players : Option (List Player)
  turns : Option (List Turn)
  stage : Option Stage
  playerCount : Option Nat
  currentPlayerIndex : Option Nat
deriving Repr, DecidableEq

/-- The persist effect (hero.tsx lines 48-50): serialize the five fields of
the current state. -/
def persistState (s : State) : StoredData :=
  { players := some s.players
    turns := some s.turns
    stage := some s.stage
    playerCount := some s.playerCount
    currentPlayerIndex := some s.currentPlayerIndex }

/-- JS (x || d) for a possibly-missing number x: undefined and 0 are falsy
and give d; any other integer is kept. -/
def jsOrNat (v : Option Nat) (d : Nat) : Nat :=
  match v with
  | none => d
  | some n => if n = 0 then d else n

/-- The load effect (hero.tsx lines 34-45), applied to a parsed blob d and
the pre-load state s: each field is data.f || default.  A JS array is
truthy even when empty and a stored stage is a nonempty string, so for
players, turns and stage the fallback only fires on a missing field. -/
def loadState (d : StoredData) (s : State) : State :=
  { s with
    players := d.players.getD []
    turns := d.turns.getD []
    stage := d.stage.getD Stage.setup
    playerCount := jsOrNat d.playerCount 2
    currentPlayerIndex := jsOrNat d.currentPlayerIndex 0 }

/-- Clamping performed by the HTML range control: its value always lies in
[minV, maxV]. -/
def rangeClamp (minV maxV n : Int) : Int :=
  max minV (min maxV n)

/-- The set-player-count operation (hero.tsx line 146): the onChange
handler stores Number(e.target.value), where the value comes from an
input of type range with min 2 and max 8, whose value the browser keeps
clamped to that interval; n is the integer the user tried to select. -/
def setPlayerCountOp (n : Int) (s : State) : State :=
  { s with playerCount := (rangeClamp 2 8 n).toNat }

/-- One play-stage user action: pressing Add Turn (with the fresh id and
timestamp the environment supplies) or pressing Undo. -/
inductive Op where
  | add (freshId : String) (now : Nat)
  | undo
deriving Repr, DecidableEq

/-- Apply one action to a state. -/
def applyOp (o : Op) (s : State) : Option State :=
  match o with
  | Op.add freshId now => addTurn freshId now s
  | Op.undo => undoLast s

/-- Apply a finite sequence of add/undo actions from left to right. -/
def applyOps (ops : List Op) (s : State) : Option State :=
  match ops with
  | [] => some s
  | o :: rest => (applyOp o s).bind (applyOps rest)

/-- Sum of matching points over a cons cell. -/
theorem sumFor_cons (t : Turn) (ts : List Turn) (pid : String) :
    sumFor (t :: ts) pid =
      (if t.playerId = pid then t.points else 0) + sumFor ts pid := by
  by_cases h : t.playerId = pid <;>
    simp [sumFor, List.filter_cons, h]

/-- Initialising roster entries to 0 leaves every key reading 0 through
the (. || 0) view. -/
theorem initMap_getD (players : List Player) (m : RecMap) (pid : String)
    (h : (m pid).getD 0 = 0) :
    ((players.foldl (fun m p => recSet m p.id 0) m) pid).getD 0 = 0 := by
  induction players generalizing m with
  | nil => simpa using h
  | cons p ps ih =>
    simp only [List.foldl_cons]
    apply ih
    by_cases hk : pid = p.id <;> simp [recSet, hk, h]

/-- Folding the totals step over a turn list adds, at every key, exactly
the sum of the points of the turns carrying that key. -/
theorem totalsFold_getD (turns : List Turn) (m : RecMap) (pid : String) :
    ((turns.foldl totalsStep m) pid).getD 0 = (m pid).getD 0 + sumFor turns pid := by
  induction turns generalizing m with
  | nil => simp [sumFor]
  | cons t ts ih =>
    simp only [List.foldl_cons]
    rw [ih, sumFor_cons]
    by_cases hk : pid = t.playerId
    · subst hk
      simp [totalsStep, recSet]
      ring
    · have hk' : ¬ t.playerId = pid := fun h => hk h.symm
      simp [totalsStep, recSet, hk, hk']

/-- C1: for every roster and turn log, the total the UI displays for a
roster player (totals[p.id] ?? 0, where totals is the pure fold of the
memo over the turn log) is the sum of the points of exactly the turns whose
playerId equals that player's id. -/
theorem c1_displayedTotal_eq_sumFor (players : List Player) (turns : List Turn)
    (p : Player) (hp : p ∈ players) :
    displayedTotal players turns p.id = sumFor turns p.id := by
  unfold displayedTotal computeTotals
  rw [totalsFold_getD, initMap_getD players (fun _ => none) p.id (by simp)]
  ring

/-- Witness for C1 at a concrete roster and log. -/
theorem c1_displayedTotal_eq_sumFor_witness :
    displayedTotal
      [⟨"a", "Player 1", "🦁", 0⟩, ⟨"b", "Player 2", "🐙", 0⟩]
      [⟨"t1", "a", 10, 0⟩, ⟨"t2", "b", 7, 1⟩, ⟨"t3", "a", -4, 2⟩]
      "a" =
    sumFor [⟨"t1", "a", 10, 0⟩, ⟨"t2", "b", 7, 1⟩, ⟨"t3", "a", -4, 2⟩] "a" :=
  c1_displayedTotal_eq_sumFor
    [⟨"a", "Player 1", "🦁", 0⟩, ⟨"b", "Player 2", "🐙", 0⟩]
    [⟨"t1", "a", 10, 0⟩, ⟨"t2", "b", 7, 1⟩, ⟨"t3", "a", -4, 2⟩]
    ⟨"a", "Player 1", "🦁", 0⟩ (by decide)

/-- Unfolding addTurn on the success path: parse succeeded, roster
non-empty, player found at the current index. -/
theorem addTurn_some (freshId : String) (now : Nat) (s : State) (n : Int) (p : Player)
    (hlen : s.players.length ≠ 0)
    (hp : s.players[s.currentPlayerIndex]? = some p)
    (hparse : jsToNumber s.currentPoints = some n) :
    addTurn freshId now s =
      some { s with
        turns := s.turns ++ [{ id := freshId, playerId := p.id, points := n, timestamp := now }]
        currentPoints := ""
        currentPlayerIndex := (s.currentPlayerIndex + 1) % s.players.length } := by
  simp [addTurn, hparse, hlen, hp]

/-- A valid index into the roster yields a player. -/
theorem players_getElem?_some (s : State) (hidx : s.currentPlayerIndex < s.players.length) :
    ∃ p, s.players[s.currentPlayerIndex]? = some p := by
  rw [List.getElem?_eq_getElem hidx]
  exact ⟨_, rfl⟩

/-- C2: in the play stage with a non-empty roster, a (valid) current index
and a pending input parsing to the finite number n, addTurn appends exactly
one Turn carrying the current player's id, points n and the supplied
wall-clock timestamp, clears the pending input, advances the index by one
modulo the roster size, and changes nothing else. -/
theorem c2_addTurn_appends (freshId : String) (now : Nat) (s : State) (n : Int)
    (hstage : s.stage = Stage.play)
    (hne : s.players ≠ [])
    (hidx : s.currentPlayerIndex < s.players.length)
    (hparse : jsToNumber s.currentPoints = some n) :
    ∃ p, s.players[s.currentPlayerIndex]? = some p ∧
      addTurn freshId now s =
        some { s with
          turns := s.turns ++ [{ id := freshId, playerId := p.id, points := n, timestamp := now }]
          currentPoints := ""
          currentPlayerIndex := (s.currentPlayerIndex + 1) % s.players.length } := by
  have hlen : s.players.length ≠ 0 := by
    simpa [List.length_eq_zero] using hne
  obtain ⟨p, hp⟩ := players_getElem?_some s hidx
  exact ⟨p, hp, addTurn_some freshId now s n p hlen hp hparse⟩

/-- Witness for C2: a play state with two players and input "10". -/
theorem c2_addTurn_appends_witness :
    ∃ p, ([⟨"a", "Player 1", "🦁", 0⟩, ⟨"b", "Player 2", "🐙", 0⟩] : List Player)[(0 : Nat)]? = some p ∧
      addTurn "t9" 123
        ⟨Stage.play, 2, [⟨"a", "Player 1", "🦁", 0⟩, ⟨"b", "Player 2", "🐙", 0⟩], [], "10", 0⟩ =
      some ⟨Stage.play, 2, [⟨"a", "Player 1", "🦁", 0⟩, ⟨"b", "Player 2", "🐙", 0⟩],
            [⟨"t9", p.id, 10, 123⟩], "", (0 + 1) % 2⟩ :=
  c2_addTurn_appends "t9" 123
    ⟨Stage.play, 2, [⟨"a", "Player 1", "🦁", 0⟩, ⟨"b", "Player 2", "🐙", 0⟩], [], "10", 0⟩
    10 rfl (by decide) (by decide) (by decide)

/-- C3: when the pending input does not parse to a finite number, or the
roster is empty, addTurn returns the state unchanged (and in particular
raises no error: the result is some). -/
theorem c3_addTurn_noop (freshId : String) (now : Nat) (s : State)
    (h : jsToNumber s.currentPoints = none ∨ s.players = []) :
    addTurn freshId now s = some s := by
  rcases h with h | h
  · simp [addTurn, h]
  · cases hp : jsToNumber s.currentPoints <;> simp [addTurn, hp, h]

/-- Witness for C3: the input "abc" is rejected and the state kept. -/
theorem c3_addTurn_noop_witness :
    addTurn "t9" 123 ⟨Stage.play, 2, [⟨"a", "Player 1", "🦁", 0⟩], [], "abc", 0⟩ =
      some ⟨Stage.play, 2, [⟨"a", "Player 1", "🦁", 0⟩], [], "abc", 0⟩ :=
  c3_addTurn_noop "t9" 123 ⟨Stage.play, 2, [⟨"a", "Player 1", "🦁", 0⟩], [], "abc", 0⟩
    (Or.inl (by decide))

/-- Advancing the index forward one step modulo len and then back one step
modulo len returns to the start, for a valid starting index. -/
theorem index_cycle (i len : Nat) (h : i < len) :
    ((i + 1) % len + len - 1) % len = i := by
  rcases Nat.lt_or_ge (i + 1) len with h1 | h1
  · rw [Nat.mod_eq_of_lt h1]
    have h2 : i + 1 + len - 1 = len + i := by omega
    rw [h2, Nat.add_mod_left]
    exact Nat.mod_eq_of_lt h
  · have hl : i + 1 = len := by omega
    rw [hl, Nat.mod_self]
    have h2 : 0 + len - 1 = i := by omega
    rw [h2]
    exact Nat.mod_eq_of_lt h

/-- Unfolding undoLast on a non-empty roster. -/
theorem undoLast_some (s : State) (hlen : s.players.length ≠ 0) :
    undoLast s =
      some { s with
        turns := s.turns.dropLast
        currentPlayerIndex :=
          (s.currentPlayerIndex + s.players.length - 1) % s.players.length } := by
  simp [undoLast, hlen]

/-- C4: in the play stage with a non-empty roster, a non-empty turn log, a
valid current index and a pending input parsing to the finite number n,
addTurn followed immediately by undoLast restores the turn log to its
exact prior contents and the current index to its pre-add value. -/
theorem c4_add_undo_left_inverse (freshId : String) (now : Nat) (s : State) (n : Int)
    (hstage : s.stage = Stage.play)
    (hne : s.players ≠ [])
    (hlog : s.turns ≠ [])
    (hidx : s.currentPlayerIndex < s.players.length)
    (hparse : jsToNumber s.currentPoints = some n) :
    ∃ s1 s2, addTurn freshId now s = some s1 ∧ undoLast s1 = some s2 ∧
      s2.turns = s.turns ∧ s2.currentPlayerIndex = s.currentPlayerIndex := by
  have hlen : s.players.length ≠ 0 := by
    simpa [List.length_eq_zero] using hne
  obtain ⟨p, hp⟩ := players_getElem?_some s hidx
  refine ⟨_, _, addTurn_some freshId now s n p hlen hp hparse, undoLast_some _ hlen, ?_, ?_⟩
  · simp
  · simpa using index_cycle s.currentPlayerIndex s.players.length hidx

/-- Witness for C4: a play state with two players, one logged turn and
input "7". -/
theorem c4_add_undo_left_inverse_witness :
    ∃ s1 s2,
      addTurn "t9" 123
        ⟨Stage.play, 2, [⟨"a", "Player 1", "🦁", 0⟩, ⟨"b", "Player 2", "🐙", 0⟩],
         [⟨"t1", "a", 10, 0⟩], "7", 1⟩ = some s1 ∧
      undoLast s1 = some s2 ∧
      s2.turns = [⟨"t1", "a", 10, 0⟩] ∧
      s2.currentPlayerIndex = 1 :=
  c4_add_undo_left_inverse "t9" 123
    ⟨Stage.play, 2, [⟨"a", "Player 1", "🦁", 0⟩, ⟨"b", "Player 2", "🐙", 0⟩],
     [⟨"t1", "a", 10, 0⟩], "7", 1⟩
    7 rfl (by decide) (by decide) (by decide) (by decide)

/-- C7: in the play stage with a non-empty roster, undoLast removes exactly
the most recently appended turn when the log is non-empty, removes nothing
when the log is empty, and in both cases rotates the current index backward
by one position modulo the roster size; roster, stage and pending input are
untouched. -/
theorem c7_undoLast_spec (s : State)
    (hstage : s.stage = Stage.play)
    (hne : s.players ≠ []) :
    ∃ s', undoLast s = some s' ∧
      s'.players = s.players ∧
      s'.stage = s.stage ∧
      s'.currentPoints = s.currentPoints ∧
      (∀ l t, s.turns = l ++ [t] → s'.turns = l) ∧
      (s.turns = [] → s'.turns = []) ∧
      s'.currentPlayerIndex =
        (s.currentPlayerIndex + s.players.length - 1) % s.players.length := by
  have hlen : s.players.length ≠ 0 := by
    simpa [List.length_eq_zero] using hne
  refine ⟨_, undoLast_some s hlen, rfl, rfl, rfl, ?_, ?_, rfl⟩
  · intro l t hlt
    simp [hlt]
  · intro hnil
    simp [hnil]

/-- Witness for C7: an empty log with a two-player roster still rotates the
index backward. -/
theorem c7_undoLast_spec_witness :
    ∃ s', undoLast ⟨Stage.play, 2, [⟨"a", "Player 1", "🦁", 0⟩, ⟨"b", "Player 2", "🐙", 0⟩],
          [], "", 0⟩ = some s' ∧
      s'.players = [⟨"a", "Player 1", "🦁", 0⟩, ⟨"b", "Player 2", "🐙", 0⟩] ∧
      s'.stage = Stage.play ∧
      s'.currentPoints = "" ∧
      (∀ l t, ([] : List Turn) = l ++ [t] → s'.turns = l) ∧
      (([] : List Turn) = [] → s'.turns = []) ∧
      s'.currentPlayerIndex = (0 + 2 - 1) % 2 :=
  c7_undoLast_spec
    ⟨Stage.play, 2, [⟨"a", "Player 1", "🦁", 0⟩, ⟨"b", "Player 2", "🐙", 0⟩], [], "", 0⟩
    rfl (by decide)

/-- One add or undo action on a state with a non-empty roster and a valid
index succeeds, keeps the roster, and keeps the index valid. -/
theorem applyOp_preserves_index (o : Op) (s : State)
    (hne : s.players ≠ [])
    (hidx : s.currentPlayerIndex < s.players.length) :
    ∃ s1, applyOp o s = some s1 ∧ s1.players = s.players ∧
      s1.currentPlayerIndex < s1.players.length := by
  have hlen : s.players.length ≠ 0 := by
    simpa [List.length_eq_zero] using hne
  have hpos : 0 < s.players.length := Nat.pos_of_ne_zero hlen
  cases o with
  | add freshId now =>
    cases hparse : jsToNumber s.currentPoints with
    | none =>
      refine ⟨s, ?_, rfl, hidx⟩
      simp [applyOp, addTurn, hparse]
    | some n =>
      obtain ⟨p, hp⟩ := players_getElem?_some s hidx
      exact ⟨{ s with
          turns := s.turns ++ [{ id := freshId, playerId := p.id, points := n, timestamp := now }]
          currentPoints := ""
          currentPlayerIndex := (s.currentPlayerIndex + 1) % s.players.length },
        by simpa [applyOp] using addTurn_some freshId now s n p hlen hp hparse,
        rfl,
        Nat.mod_lt _ hpos⟩
  | undo =>
    exact ⟨{ s with
        turns := s.turns.dropLast
        currentPlayerIndex := (s.currentPlayerIndex + s.players.length - 1) % s.players.length },
      by simpa [applyOp] using undoLast_some s hlen,
      rfl,
      Nat.mod_lt _ hpos⟩

/-- C5: from any state with a non-empty roster and a current index in
[0, roster size), every finite sequence of add/undo actions runs to
completion, never changes the roster, and leaves the current index in
[0, roster size). -/
theorem c5_index_invariant (ops : List Op) (s : State)
    (hne : s.players ≠ [])
    (hidx : s.currentPlayerIndex < s.players.length) :
    ∃ s', applyOps ops s = some s' ∧ s'.players = s.players ∧
      s'.currentPlayerIndex < s'.players.length := by
  induction ops generalizing s with
  | nil => exact ⟨s, rfl, rfl, hidx⟩
  | cons o rest ih =>
    obtain ⟨s1, h1, hpl, hidx1⟩ := applyOp_preserves_index o s hne hidx
    have hne1 : s1.players ≠ [] := by rw [hpl]; exact hne
    obtain ⟨s', h', hpl', hidx'⟩ := ih s1 hne1 (by simpa [hpl] using hidx1)
    refine ⟨s', ?_, by rw [hpl', hpl], hidx'⟩
    simp [applyOps, h1, h']

/-- Witness for C5: three actions from a concrete two-player play state. -/
theorem c5_index_invariant_witness :
    ∃ s', applyOps [Op.add "t1" 10, Op.undo, Op.undo]
        ⟨Stage.play, 2, [⟨"a", "Player 1", "🦁", 0⟩, ⟨"b", "Player 2", "🐙", 0⟩],
         [], "5", 0⟩ = some s' ∧
      s'.players = [⟨"a", "Player 1", "🦁", 0⟩, ⟨"b", "Player 2", "🐙", 0⟩] ∧
      s'.currentPlayerIndex < s'.players.length :=
  c5_index_invariant [Op.add "t1" 10, Op.undo, Op.undo]
    ⟨Stage.play, 2, [⟨"a", "Player 1", "🦁", 0⟩, ⟨"b", "Player 2", "🐙", 0⟩], [], "5", 0⟩
    (by decide) (by decide)

/-- C6: beginNaming, run in the setup stage with an injective supply of
fresh ids, moves the stage to naming and replaces the roster with exactly
playerCount players, where the i-th (0-based) has the i-th fresh id, the
default name "Player {i+1}", the avatar palette[i mod palette length]
(cycling from palette index 0), a total of 0, and an id distinct from every
other generated id. -/
theorem c6_beginNaming_spec (freshIds : Nat → String) (s : State)
    (hstage : s.stage = Stage.setup)
    (hinj : ∀ i, i < s.playerCount → ∀ j, j < s.playerCount →
      freshIds i = freshIds j → i = j) :
    (beginNaming freshIds s).stage = Stage.naming ∧
    (beginNaming freshIds s).players.length = s.playerCount ∧
    (∀ i, i < s.playerCount →
      (beginNaming freshIds s).players[i]? =
        some { id := freshIds i
               name := "Player " ++ toString (i + 1)
               emoji := EMOJIS.getD (i % EMOJIS.length) ""
               total := 0 }) ∧
    (∀ i, i < s.playerCount → ∀ j, j < s.playerCount → i ≠ j →
      ∀ p q, (beginNaming freshIds s).players[i]? = some p →
        (beginNaming freshIds s).players[j]? = some q → p.id ≠ q.id) := by
  refine ⟨rfl, by simp [beginNaming], ?_, ?_⟩
  · intro i hi
    simp [beginNaming, List.getElem?_map, List.getElem?_range hi]
  · intro i hi j hj hij p q hp hq
    simp [beginNaming, List.getElem?_map, List.getElem?_range hi] at hp
    simp [beginNaming, List.getElem?_map, List.getElem?_range hj] at hq
    intro hid
    rw [← hp, ← hq] at hid
    exact hij (hinj i hi j hj (by simpa using hid))

/-- Witness for C6: two players generated from an injective id supply. -/
theorem c6_beginNaming_spec_witness :
    (beginNaming (fun i => toString i) ⟨Stage.setup, 2, [], [], "", 0⟩).stage = Stage.naming ∧
    (beginNaming (fun i => toString i) ⟨Stage.setup, 2, [], [], "", 0⟩).players.length = 2 ∧
    (∀ i, i < 2 →
      (beginNaming (fun i => toString i) ⟨Stage.setup, 2, [], [], "", 0⟩).players[i]? =
        some { id := toString i
               name := "Player " ++ toString (i + 1)
               emoji := EMOJIS.getD (i % EMOJIS.length) ""
               total := 0 }) ∧
    (∀ i, i < 2 → ∀ j, j < 2 → i ≠ j →
      ∀ p q,
        (beginNaming (fun i => toString i) ⟨Stage.setup, 2, [], [], "", 0⟩).players[i]? = some p →
        (beginNaming (fun i => toString i) ⟨Stage.setup, 2, [], [], "", 0⟩).players[j]? = some q →
        p.id ≠ q.id) :=
  c6_beginNaming_spec (fun i => toString i) ⟨Stage.setup, 2, [], [], "", 0⟩ rfl (by decide)

/-- C8: persisting a session state (whose playerCount is nonzero, as every
reachable playerCount in [2,8] is) and loading the blob back over any
pre-load state reproduces the same stage, roster, turn log, playerCount and
current index, and the derived totals recomputed for the loaded state agree
with those of the original state at every player id. -/
theorem c8_persist_roundtrip (s s0 : State)
    (hpc : s.playerCount ≠ 0) :
    (loadState (persistState s) s0).stage = s.stage ∧
    (loadState (persistState s) s0).players = s.players ∧
    (loadState (persistState s) s0).turns = s.turns ∧
    (loadState (persistState s) s0).playerCount = s.playerCount ∧
    (loadState (persistState s) s0).currentPlayerIndex = s.currentPlayerIndex ∧
    (∀ pid,
      displayedTotal (loadState (persistState s) s0).players
          (loadState (persistState s) s0).turns pid =
        displayedTotal s.players s.turns pid) := by
  refine ⟨rfl, rfl, rfl, ?_, ?_, fun pid => rfl⟩
  · simp [loadState, persistState, jsOrNat, hpc]
  · by_cases h : s.currentPlayerIndex = 0 <;>
      simp [loadState, persistState, jsOrNat, h]

/-- Witness for C8 at a concrete mid-play session. -/
theorem c8_persist_roundtrip_witness :
    (loadState (persistState ⟨Stage.play, 2, [⟨"a", "Player 1", "🦁", 0⟩],
        [⟨"t1", "a", 10, 0⟩], "7", 1⟩) ⟨Stage.setup, 2, [], [], "", 0⟩).stage = Stage.play ∧
    (loadState (persistState ⟨Stage.play, 2, [⟨"a", "Player 1", "🦁", 0⟩],
        [⟨"t1", "a", 10, 0⟩], "7", 1⟩) ⟨Stage.setup, 2, [], [], "", 0⟩).players =
      [⟨"a", "Player 1", "🦁", 0⟩] ∧
    (loadState (persistState ⟨Stage.play, 2, [⟨"a", "Player 1", "🦁", 0⟩],
        [⟨"t1", "a", 10, 0⟩], "7", 1⟩) ⟨Stage.setup, 2, [], [], "", 0⟩).turns =
      [⟨"t1", "a", 10, 0⟩] ∧
    (loadState (persistState ⟨Stage.play, 2, [⟨"a", "Player 1", "🦁", 0⟩],
        [⟨"t1", "a", 10, 0⟩], "7", 1⟩) ⟨Stage.setup, 2, [], [], "", 0⟩).playerCount = 2 ∧
    (loadState (persistState ⟨Stage.play, 2, [⟨"a", "Player 1", "🦁", 0⟩],
        [⟨"t1", "a", 10, 0⟩], "7", 1⟩) ⟨Stage.setup, 2, [], [], "", 0⟩).currentPlayerIndex = 1 ∧
    (∀ pid,
      displayedTotal
          (loadState (persistState ⟨Stage.play, 2, [⟨"a", "Player 1", "🦁", 0⟩],
            [⟨"t1", "a", 10, 0⟩], "7", 1⟩) ⟨Stage.setup, 2, [], [], "", 0⟩).players
          (loadState (persistState ⟨Stage.play, 2, [⟨"a", "Player 1", "🦁", 0⟩],
            [⟨"t1", "a", 10, 0⟩], "7", 1⟩) ⟨Stage.setup, 2, [], [], "", 0⟩).turns pid =
        displayedTotal [⟨"a", "Player 1", "🦁", 0⟩] [⟨"t1", "a", 10, 0⟩] pid) :=
  c8_persist_roundtrip
    ⟨Stage.play, 2, [⟨"a", "Player 1", "🦁", 0⟩], [⟨"t1", "a", 10, 0⟩], "7", 1⟩
    ⟨Stage.setup, 2, [], [], "", 0⟩ (by decide)

/-- C9: whatever integer the range control is driven towards, the stored
player count ends up in [2,8]; an in-range value is stored as given, and
the roster is untouched. -/
theorem c9_setPlayerCount_bounds (n : Int) (s : State) :
    2 ≤ (setPlayerCountOp n s).playerCount ∧
    (setPlayerCountOp n s).playerCount ≤ 8 ∧
    (setPlayerCountOp n s).players = s.players ∧
    (2 ≤ n → n ≤ 8 → ((setPlayerCountOp n s).playerCount : Int) = n) := by
  refine ⟨?_, ?_, rfl, ?_⟩ <;>
    simp only [setPlayerCountOp, rangeClamp] <;>
    omega

/-- Witness for C9: driving the control towards 100 stores 8. -/
theorem c9_setPlayerCount_bounds_witness :
    2 ≤ (setPlayerCountOp 100 ⟨Stage.setup, 2, [], [], "", 0⟩).playerCount ∧
    (setPlayerCountOp 100 ⟨Stage.setup, 2, [], [], "", 0⟩).playerCount ≤ 8 ∧
    (setPlayerCountOp 100 ⟨Stage.setup, 2, [], [], "", 0⟩).players = [] ∧
    (2 ≤ (100 : Int) → (100 : Int) ≤ 8 →
      ((setPlayerCountOp 100 ⟨Stage.setup, 2, [], [], "", 0⟩).playerCount : Int) = 100) :=
  c9_setPlayerCount_bounds 100 ⟨Stage.setup, 2, [], [], "", 0⟩

/-- C10: in the play stage with a non-empty roster and a valid index, an
empty pending input is converted to the finite number 0, so addTurn is not
a no-op: it records a points-0 turn for the current player and advances the
index, exactly as an explicit "0" input would. -/
theorem c10_addTurn_empty_input (freshId : String) (now : Nat) (s : State)
    (hstage : s.stage = Stage.play)
    (hne : s.players ≠ [])
    (hidx : s.currentPlayerIndex < s.players.length)
    (hempty : s.currentPoints = "") :
    jsToNumber s.currentPoints = some 0 ∧
    ∃ p, s.players[s.currentPlayerIndex]? = some p ∧
      addTurn freshId now s =
        some { s with
          turns := s.turns ++ [{ id := freshId, playerId := p.id, points := 0, timestamp := now }]
          currentPoints := ""
          currentPlayerIndex := (s.currentPlayerIndex + 1) % s.players.length } ∧
      addTurn freshId now ({ s with currentPoints := "0" }) = addTurn freshId now s := by
  have hparse : jsToNumber s.currentPoints = some 0 := by rw [hempty]; rfl
  have hlen : s.players.length ≠ 0 := by
    simpa [List.length_eq_zero] using hne
  obtain ⟨p, hp⟩ := players_getElem?_some s hidx
  have hadd := addTurn_some freshId now s 0 p hlen hp hparse
  refine ⟨hparse, p, hp, hadd, ?_⟩
  have hparse0 : jsToNumber (({ s with currentPoints := "0" } : State).currentPoints) = some 0 := rfl
  have hp0 : ({ s with currentPoints := "0" } : State).players[({ s with currentPoints := "0" } : State).currentPlayerIndex]? = some p := hp
  have hadd0 := addTurn_some freshId now ({ s with currentPoints := "0" }) 0 p hlen hp0 hparse0
  rw [hadd0, hadd]

/-- Witness for C10: an empty input on a one-player play state records a
points-0 turn. -/
theorem c10_addTurn_empty_input_witness :
    jsToNumber "" = some 0 ∧
    ∃ p, ([⟨"a", "Player 1", "🦁", 0⟩] : List Player)[(0 : Nat)]? = some p ∧
      addTurn "t9" 7 ⟨Stage.play, 2, [⟨"a", "Player 1", "🦁", 0⟩], [], "", 0⟩ =
        some ⟨Stage.play, 2, [⟨"a", "Player 1", "🦁", 0⟩],
              [⟨"t9", p.id, 0, 7⟩], "", (0 + 1) % 1⟩ ∧
      addTurn "t9" 7 ⟨Stage.play, 2, [⟨"a", "Player 1", "🦁", 0⟩], [], "0", 0⟩ =
        addTurn "t9" 7 ⟨Stage.play, 2, [⟨"a", "Player 1", "🦁", 0⟩], [], "", 0⟩ :=
  c10_addTurn_empty_input "t9" 7
    ⟨Stage.play, 2, [⟨"a", "Player 1", "🦁", 0⟩], [], "", 0⟩
    rfl (by decide) (by decide) rfl
